import Mathlib

/-!
Shallow embedding of the jpl_ta1 session protocol engine:
the retry decorator (`jpl_ta1/utils/decorators.py`), the learner shell
(`jpl_ta1/model_wrapper.py`), the API handler's header management and
seed-label parsing (`jpl_ta1/api_handler.py`), and the session state
machine (`jpl_ta1/session.py`).
-/

namespace JplTa1

/-! ### Retry decorator (`utils/decorators.py`, `retry`)

A remote attempt either returns a value, fails with a transient error
(`ConnectionError` / `Timeout`, the `ExceptionToCheck` classes), or fails
with some other exception that the decorator does not catch. -/

inductive Outcome (α : Type) where
  | ok (a : α)
  | transient (e : String)
  | fatal (e : String)
  deriving DecidableEq, Repr

def Outcome.isTransient {α : Type} : Outcome α → Bool
  | .transient _ => true
  | _ => false

def Outcome.isOk {α : Type} : Outcome α → Bool
  | .ok _ => true
  | _ => false

/-- The `while mtries > 1` loop of `retry` followed by the final unguarded
call.  `attempts k` is the outcome of the (k+1)-th invocation of the wrapped
function.  Returns the list of sleep delays performed, the number of
invocations made, and the final outcome (a transient failure in the last
slot, or any non-transient failure, propagates to the caller unchanged). -/
def retryLoop {α : Type} (attempts : Nat → Outcome α) :
    Nat → Nat → Nat → List Nat × Nat × Outcome α
  | _, _, 0 => ([], 0, .fatal "unreachable")
  | k, _, 1 => ([], 1, attempts k)
  | k, mdelay, m + 2 =>
    match attempts k with
    | .ok a => ([], 1, .ok a)
    | .fatal e => ([], 1, .fatal e)
    | .transient _ =>
      let r := retryLoop attempts (k + 1) (mdelay * 2) (m + 1)
      (mdelay :: r.1, r.2.1 + 1, r.2.2)

/-- `@retry((ConnectionError, Timeout))` with the default parameters
`tries=4, delay=3, backoff=2`. -/
def retryCall {α : Type} (attempts : Nat → Outcome α) : List Nat × Nat × Outcome α :=
  retryLoop attempts 0 3 4

/-! ### API operations and which of them are retry-wrapped -/

inductive ApiOp where
  | listTasks
  | taskMetadata
  | startSession
  | sessionMetadata
  | seedLabels
  | submitPredictions
  | queryLabels
  deriving DecidableEq, Repr

/-- Which remote operations of `LwllApiHandler` carry the `@retry` decorator
in the source.  The decorator on `get_seed_labels` is commented out. -/
def retryWrapped : ApiOp → Bool
  | .seedLabels => false
  | _ => true

/-! ### Label records and the label cache -/

abbrev LabelRecord := String

/-- `Session.label_cache`, a Python dict keyed by item id. -/
abbrev LabelCache := List (String × LabelRecord)

/-! ### ModelWrapper (`model_wrapper.py`) — the state the session engine reads -/

/-- Exceptions raised by `ModelWrapper.fit`'s precondition checks. -/
inductive FitError where
  | forgotPairStage
  | missingDatasetMetadata
  deriving DecidableEq, Repr

structure ModelWrapper where
  pair_stage : String
  dataset_metadata : List (String × String)
  deriving DecidableEq, Repr

/-- `ModelWrapper.__init__`: `self.pair_stage = ''`,
`self.dataset_metadata = {}`. -/
def ModelWrapper.init : ModelWrapper :=
  { pair_stage := "", dataset_metadata := [] }

/-- `ModelWrapper.set_stage(stage, dataset_metadata)`. -/
def ModelWrapper.set_stage (m : ModelWrapper) (stage : String)
    (dm : List (String × String)) : ModelWrapper :=
  { m with pair_stage := stage, dataset_metadata := dm }

/-- `ModelWrapper.fit(data)`: raises if `pair_stage` was never set, then if
`dataset_metadata` was never set; otherwise a no-op shell. -/
def ModelWrapper.fit (m : ModelWrapper) (_data : LabelCache) : Except FitError Unit :=
  if m.pair_stage = "" then .error .forgotPairStage
  else if m.dataset_metadata = [] then .error .missingDatasetMetadata
  else .ok ()

/-- `ModelWrapper.most_uncertain_unlabeled_items`: the shell returns `[]`. -/
def ModelWrapper.most_uncertain_unlabeled_items (_m : ModelWrapper) : List String := []

/-! ### Session metadata (`Session_Status` payload) -/

structure SessionMetadata where
  active : String
  pair_stage : String
  budget_used : Nat
  budget_left_until_checkpoint : Nat
  date_last_interacted : String
  current_dataset : List (String × String)
  deriving DecidableEq, Repr

/-- The fields of a metadata snapshot that remain after
`del metadata["date_last_interacted"]`. -/
structure StrippedMetadata where
  active : String
  pair_stage : String
  budget_used : Nat
  budget_left_until_checkpoint : Nat
  current_dataset : List (String × String)
  deriving DecidableEq, Repr

def SessionMetadata.strip (m : SessionMetadata) : StrippedMetadata :=
  { active := m.active, pair_stage := m.pair_stage, budget_used := m.budget_used,
    budget_left_until_checkpoint := m.budget_left_until_checkpoint,
    current_dataset := m.current_dataset }

/-- `Session._refresh_metadata`: given the previous snapshot (`none` when
`self.metadata` is not yet set, as in `__init__`) and the freshly fetched
snapshot, returns whether the "metadata did not change" message is logged,
and the stored result.  The comparison deletes `date_last_interacted` from
both sides; with no previous snapshot the old side is the empty dict, which
never equals a `Session_Status` payload. -/
def refresh_metadata (old : Option SessionMetadata) (fetched : SessionMetadata) :
    Bool × SessionMetadata :=
  match old with
  | none => (false, fetched)
  | some m => (m.strip = fetched.strip, fetched)

/-! ### Seed-label responses (`LwllApiHandler.get_seed_labels`) -/

structure SeedResponse where
  status : Nat
  labels : Option (List LabelRecord)
  trace : Option String
  err : Option String
  deriving DecidableEq, Repr

/-- `response.get('trace', response.get('Error', 'unknown error'))`. -/
def SeedResponse.failMessage (r : SeedResponse) : String :=
  r.trace.getD (r.err.getD "unknown error")

/-- `get_seed_labels`: on a 200 response, return the `Labels` field or raise
with the service-provided trace/error message; on a non-200 response, log
the message and fall off the function (returning Python `None`). -/
def get_seed_labels (r : SeedResponse) : Except String (Option (List LabelRecord)) :=
  if r.status = 200 then
    match r.labels with
    | some ls => .ok (some ls)
    | none => .error r.failMessage
  else
    .ok none

/-! ### Authentication headers (`LwllApiHandler.__init__`, `_get_session_headers`) -/

/-- The header dict: `user_secret` always present, `session_token` present
once it has been written into the dict. -/
structure Headers where
  user_secret : String
  session_token : Option String
  deriving DecidableEq, Repr

structure ApiHandlerState where
  non_session_headers : Headers
  deriving DecidableEq, Repr

/-- `__init__`: `self.non_session_headers = {'user_secret': self.team_secret}`. -/
def ApiHandlerState.init (team_secret : String) : ApiHandlerState :=
  { non_session_headers := { user_secret := team_secret, session_token := none } }

/-- `_get_session_headers`: `_headers = self.non_session_headers` aliases the
stored dict, and `_headers['session_token'] = session_token` mutates it in
place, so the handler's `non_session_headers` gains the token as well. -/
def ApiHandlerState.get_session_headers (h : ApiHandlerState) (tok : String) :
    Headers × ApiHandlerState :=
  let hdrs := { h.non_session_headers with session_token := some tok }
  (hdrs, { h with non_session_headers := hdrs })

/-- One client call: non-session calls (`get_all_tasks`,
`get_task_metadata`, `start_session`) read `non_session_headers` as is;
session-scoped calls (`get_session_metadata`, `get_seed_labels`,
`submit_predictions`, `request_labels`) go through `_get_session_headers`. -/
inductive ClientCall where
  | nonSession
  | session (tok : String)
  deriving DecidableEq, Repr

def doCall (h : ApiHandlerState) : ClientCall → Headers × ApiHandlerState
  | .nonSession => (h.non_session_headers, h)
  | .session tok => h.get_session_headers tok

/-- The sequence of header dicts attached by a sequence of client calls. -/
def runCalls (h : ApiHandlerState) : List ClientCall → List Headers
  | [] => []
  | c :: cs =>
    let r := doCall h c
    r.1 :: runCalls r.2 cs

/-! ### The session state machine (`session.py`, `Session.run`)

The remote service is modelled as an oracle giving the n-th response of
each endpoint; the engine is a step-by-step translation of `Session.run`
that records an event trace. -/

inductive Event where
  | startSession
  | getSessionMetadata
  | unchangedSignal
  | getSeedLabels
  | submitPredictions
  | requestLabels
  | fitCall (cache : LabelCache)
  | setStage (stage : String)
  | seedRound (stage : String) (round : Nat)
  | checkpoint (stage : String) (idx : Nat)
  | stageCheck
  deriving DecidableEq, Repr

inductive RunError where
  | protocolError (msg : String)
  | fitFailure (e : FitError)
  | stageTransitionError
  | incompleteSessionError
  deriving DecidableEq, Repr

structure Server where
  metas : Nat → SessionMetadata
  seeds : Nat → SeedResponse
  queries : Nat → List LabelRecord

structure RunState where
  metadata : SessionMetadata
  metaIdx : Nat
  seedIdx : Nat
  queryIdx : Nat
  model : ModelWrapper
  label_cache : LabelCache
  trace : List Event
  deriving DecidableEq, Repr

/-- Exception propagation: a raised error aborts the remaining steps. -/
def stepThen (r : RunState × Option RunError)
    (f : RunState → RunState × Option RunError) : RunState × Option RunError :=
  match r with
  | (s, some e) => (s, some e)
  | (s, none) => f s

def foldSteps (f : Nat → RunState → RunState × Option RunError) :
    List Nat → RunState → RunState × Option RunError
  | [], s => (s, none)
  | i :: rest, s => stepThen (f i s) (foldSteps f rest)

/-- `Session._add_to_label_cache`: the body is `pass`. -/
def add_to_label_cache (cache : LabelCache) (_labels : Option (List LabelRecord))
    (_seed_round : Bool) : LabelCache :=
  cache

/-- `self.metadata = self._refresh_metadata()` inside `run`, where
`self.metadata` is already set. -/
def refreshStep (server : Server) (s : RunState) : RunState :=
  let r := refresh_metadata (some s.metadata) (server.metas s.metaIdx)
  { s with metadata := r.2, metaIdx := s.metaIdx + 1,
           trace := s.trace ++ [Event.getSessionMetadata] ++
             (if r.1 then [Event.unchangedSignal] else []) }

/-- `model.fit(self.label_cache)`. -/
def fitStep (s : RunState) : RunState × Option RunError :=
  let s1 := { s with trace := s.trace ++ [Event.fitCall s.label_cache] }
  match s.model.fit s.label_cache with
  | .ok _ => (s1, none)
  | .error e => (s1, some (.fitFailure e))

/-- `self.api_handler.submit_predictions(self.session_token, model.predict())`:
a non-200 response is logged but never raised. -/
def submitStep (s : RunState) : RunState :=
  { s with trace := s.trace ++ [Event.submitPredictions] }

/-- One seed round of `Session.run` (loop body at lines 81-93). -/
def seedRoundStep (server : Server) (stage : String) (r : Nat)
    (s : RunState) : RunState × Option RunError :=
  let s0 := { s with trace := s.trace ++ [Event.seedRound stage r] }
  let resp := get_seed_labels (server.seeds s0.seedIdx)
  let s1 := { s0 with seedIdx := s0.seedIdx + 1, trace := s0.trace ++ [Event.getSeedLabels] }
  match resp with
  | .error msg => (s1, some (.protocolError msg))
  | .ok seed_labels =>
    let s2 := refreshStep server s1
    let s3 := { s2 with label_cache := add_to_label_cache s2.label_cache seed_labels true }
    stepThen (fitStep s3) (fun s4 =>
      let s5 := submitStep s4
      (refreshStep server s5, none))

/-- `Session._request_label_loop`: select uncertain items, request their
labels, merge into the cache. -/
def requestLabelLoopStep (server : Server) (s : RunState) : RunState :=
  let _samples := s.model.most_uncertain_unlabeled_items
  let labels := server.queries s.queryIdx
  let s1 := { s with queryIdx := s.queryIdx + 1, trace := s.trace ++ [Event.requestLabels] }
  { s1 with label_cache := add_to_label_cache s1.label_cache (some labels) false }

/-- The body of `while self.metadata['budget_left_until_checkpoint'] > 0`:
request labels, refit, refresh, then overwrite the budget field with 0. -/
def checkpointBody (server : Server) (s : RunState) : RunState × Option RunError :=
  let s1 := requestLabelLoopStep server s
  stepThen (fitStep s1) (fun s2 =>
    let s3 := refreshStep server s2
    ({ s3 with metadata := { s3.metadata with budget_left_until_checkpoint := 0 } }, none))

/-- The `while` loop itself, with explicit fuel; the body forces the budget
to 0, so any fuel ≥ 2 computes the loop's true result. -/
def innerWhile (server : Server) : Nat → RunState → RunState × Option RunError
  | 0, s => (s, none)
  | fuel + 1, s =>
    if s.metadata.budget_left_until_checkpoint > 0 then
      stepThen (checkpointBody server s) (innerWhile server fuel)
    else (s, none)

/-- One checkpoint of `Session.run` (loop body at lines 96-117). -/
def checkpointStep (server : Server) (rangeLim : Nat) (stage : String)
    (i : Nat) (s : RunState) : RunState × Option RunError :=
  let s0 := { s with trace := s.trace ++ [Event.checkpoint stage i] }
  stepThen (innerWhile server 2 s0) (fun s1 =>
    let s2 := submitStep s1
    let s3 := refreshStep server s2
    if i = rangeLim ∧ s3.model.pair_stage = "base" then
      let s4 := { s3 with trace := s3.trace ++ [Event.stageCheck] }
      if s4.metadata.pair_stage = "adaptation" then (s4, none)
      else (s4, some .stageTransitionError)
    else (s3, none))

/-- One iteration of `for stage in ['base', 'adaptation']`. -/
def stageStep (server : Server) (pt : String) (rangeLim : Nat) (stage : String)
    (s : RunState) : RunState × Option RunError :=
  let s0 := { s with model := s.model.set_stage stage s.metadata.current_dataset,
                     trace := s.trace ++ [Event.setStage stage] }
  let afterSeeds :=
    if pt ≠ "machine_translation" then
      foldSteps (fun r => seedRoundStep server stage r) (List.range 4) s0
    else (s0, none)
  stepThen afterSeeds
    (foldSteps (fun i => checkpointStep server rangeLim stage i) (List.range rangeLim))

/-- `Session.__init__`: start the session and perform the first metadata
fetch (with no previous snapshot); the label cache starts empty. -/
def initSession (server : Server) : RunState :=
  let r := refresh_metadata none (server.metas 0)
  { metadata := r.2, metaIdx := 1, seedIdx := 0, queryIdx := 0,
    model := ModelWrapper.init, label_cache := [],
    trace := [Event.startSession, .getSessionMetadata] ++
      (if r.1 then [Event.unchangedSignal] else []) }

/-- `range_lim`: 8 for machine translation, 4 otherwise. -/
def rangeLimOf (pt : String) : Nat :=
  if pt = "machine_translation" then 8 else 4

/-- The stage loop of `Session.run` (everything before the final assert). -/
def runStages (server : Server) (pt : String) : RunState × Option RunError :=
  let s0 := initSession server
  stepThen (stageStep server pt (rangeLimOf pt) "base" s0)
    (stageStep server pt (rangeLimOf pt) "adaptation")

/-- `Session.run`: the stage loop followed by
`assert self.metadata['active'] == 'Complete'`; nothing after the assert
performs a remote call. -/
def runSession (server : Server) (pt : String) : RunState × Option RunError :=
  match runStages server pt with
  | (s, some e) => (s, some e)
  | (s, none) =>
    if s.metadata.active = "Complete" then (s, none)
    else (s, some .incompleteSessionError)

/-! ### Event observations -/

def countP (p : Event → Bool) (t : List Event) : Nat :=
  (t.filter p).length

def Event.isSeedRound : Event → Bool
  | .seedRound _ _ => true
  | _ => false

def Event.isCheckpoint : Event → Bool
  | .checkpoint _ _ => true
  | _ => false

def Event.isMarker : Event → Bool
  | .seedRound _ _ => true
  | .checkpoint _ _ => true
  | _ => false

def Event.isSubmit : Event → Bool
  | .submitPredictions => true
  | _ => false

def Event.isRequestLabels : Event → Bool
  | .requestLabels => true
  | _ => false

def Event.isFit : Event → Bool
  | .fitCall _ => true
  | _ => false

def Event.isStageCheck : Event → Bool
  | .stageCheck => true
  | _ => false

def Event.isUnchanged : Event → Bool
  | .unchangedSignal => true
  | _ => false

/-! ### Helper lemmas -/

theorem Outcome.isTransient_iff {α : Type} (o : Outcome α) :
    o.isTransient = true ↔ ∃ e, o = .transient e := by
  cases o <;> simp [Outcome.isTransient]

theorem retryLoop_two {α : Type} (attempts : Nat → Outcome α) (k mdelay m : Nat) :
    retryLoop attempts k mdelay (m + 2) =
      match attempts k with
      | .ok a => ([], 1, .ok a)
      | .fatal e => ([], 1, .fatal e)
      | .transient _ =>
        let r := retryLoop attempts (k + 1) (mdelay * 2) (m + 1)
        (mdelay :: r.1, r.2.1 + 1, r.2.2) := rfl

theorem retryLoop_one {α : Type} (attempts : Nat → Outcome α) (k mdelay : Nat) :
    retryLoop attempts k mdelay 1 = ([], 1, attempts k) := rfl

/-- Complete unfolding of the decorated call on its four attempt slots. -/
theorem retryCall_unfold {α : Type} (attempts : Nat → Outcome α) :
    retryCall attempts =
      match attempts 0 with
      | .ok a => ([], 1, .ok a)
      | .fatal e => ([], 1, .fatal e)
      | .transient _ =>
        match attempts 1 with
        | .ok a => ([3], 2, .ok a)
        | .fatal e => ([3], 2, .fatal e)
        | .transient _ =>
          match attempts 2 with
          | .ok a => ([3, 6], 3, .ok a)
          | .fatal e => ([3, 6], 3, .fatal e)
          | .transient _ => ([3, 6, 12], 4, attempts 3) := by
  cases h0 : attempts 0 <;> cases h1 : attempts 1 <;> cases h2 : attempts 2 <;>
    simp [retryCall, retryLoop_two, retryLoop_one, h0, h1, h2]

/-! ### Claim theorems -/

/-- C1: Every client operation except `getSeedLabels` is retry-wrapped; for
any sequence of at most 3 consecutive transient (ConnectionError/Timeout)
failures followed by a success, the decorated call returns the successful
result after sleeping 3, 6, 12 time-units between attempts (one sleep per
failure) and makes `n + 1 ≤ 4` attempts; if all 4 attempts fail
transiently, the 4th attempt's exception propagates unchanged. -/
theorem retry_transient_backoff {α : Type} (attempts : Nat → Outcome α) :
    (∀ op : ApiOp, op ≠ ApiOp.seedLabels → retryWrapped op = true) ∧
    (∀ n a, n ≤ 3 → (∀ k, k < n → (attempts k).isTransient = true) →
      attempts n = .ok a →
      retryCall attempts = (List.take n [3, 6, 12], n + 1, .ok a)) ∧
    (∀ e, (∀ k, k < 3 → (attempts k).isTransient = true) →
      attempts 3 = .transient e →
      retryCall attempts = ([3, 6, 12], 4, .transient e)) := by
  refine ⟨?_, ?_, ?_⟩
  · intro op hop
    cases op <;> first | rfl | exact absurd rfl hop
  · intro n a hn hfail hok
    interval_cases n
    · simp [retryCall_unfold, hok]
    · obtain ⟨e0, h0⟩ := (Outcome.isTransient_iff _).1 (hfail 0 (by omega))
      simp [retryCall_unfold, h0, hok]
    · obtain ⟨e0, h0⟩ := (Outcome.isTransient_iff _).1 (hfail 0 (by omega))
      obtain ⟨e1, h1⟩ := (Outcome.isTransient_iff _).1 (hfail 1 (by omega))
      simp [retryCall_unfold, h0, h1, hok]
    · obtain ⟨e0, h0⟩ := (Outcome.isTransient_iff _).1 (hfail 0 (by omega))
      obtain ⟨e1, h1⟩ := (Outcome.isTransient_iff _).1 (hfail 1 (by omega))
      obtain ⟨e2, h2⟩ := (Outcome.isTransient_iff _).1 (hfail 2 (by omega))
      simp [retryCall_unfold, h0, h1, h2, hok]
  · intro e hfail h3
    obtain ⟨e0, h0⟩ := (Outcome.isTransient_iff _).1 (hfail 0 (by omega))
    obtain ⟨e1, h1⟩ := (Outcome.isTransient_iff _).1 (hfail 1 (by omega))
    obtain ⟨e2, h2⟩ := (Outcome.isTransient_iff _).1 (hfail 2 (by omega))
    simp [retryCall_unfold, h0, h1, h2, h3]

/-- Two transient failures then success, for the C1 witness. -/
def retryAttemptsA : Nat → Outcome Nat := fun k =>
  if k < 2 then .transient "connection refused" else .ok 7

/-- All four attempts fail transiently, for the C1 witness. -/
def retryAttemptsB : Nat → Outcome Nat := fun k =>
  .transient (String.append "timeout " (toString k))

theorem retry_transient_backoff_witness :
    retryCall retryAttemptsA = ([3, 6], 3, .ok 7) ∧
    retryCall retryAttemptsB = ([3, 6, 12], 4, .transient "timeout 3") := by
  constructor
  · exact (retry_transient_backoff retryAttemptsA).2.1 2 7 (by omega)
      (fun k hk => by interval_cases k <;> rfl) (by rfl)
  · exact (retry_transient_backoff retryAttemptsB).2.2 "timeout 3"
      (fun k hk => by interval_cases k <;> rfl) (by rfl)

/-- C9: `fit` called on a freshly constructed `ModelWrapper` (i.e. before
`set_stage`) raises the precondition exception; after `set_stage` with a
non-empty stage and non-empty dataset metadata, `fit` succeeds. -/
theorem fit_requires_set_stage (stage : String) (dm : List (String × String))
    (cache cache' : LabelCache) (hs : stage ≠ "") (hd : dm ≠ []) :
    ModelWrapper.init.fit cache = .error .forgotPairStage ∧
    (ModelWrapper.init.set_stage stage dm).fit cache' = .ok () := by
  constructor
  · rfl
  · simp [ModelWrapper.fit, ModelWrapper.set_stage, ModelWrapper.init, hs, hd]

theorem fit_requires_set_stage_witness :
    ModelWrapper.init.fit [] = .error .forgotPairStage ∧
    (ModelWrapper.init.set_stage "base" [("dataset_type", "image_classification")]).fit [] =
      .ok () :=
  fit_requires_set_stage "base" [("dataset_type", "image_classification")] [] []
    (by decide) (by decide)

/-- C7: two consecutive `_refresh_metadata` calls whose fetched snapshots
agree on every field except possibly `date_last_interacted`, starting from a
snapshot that differs from them: neither call raises, the first logs no
"unchanged" message, the second logs exactly one, and each call stores the
fetched snapshot — even when the timestamps of the two snapshots differ. -/
theorem refresh_metadata_unchanged_once (m0 m1 m2 : SessionMetadata)
    (hpair : m1.strip = m2.strip) (hprev : m0.strip ≠ m1.strip) :
    refresh_metadata (some m0) m1 = (false, m1) ∧
    refresh_metadata (some m1) m2 = (true, m2) := by
  constructor
  · simp [refresh_metadata, hprev]
  · simp [refresh_metadata, hpair]

def refreshMeta0 : SessionMetadata :=
  { active := "Active", pair_stage := "base", budget_used := 0,
    budget_left_until_checkpoint := 5, date_last_interacted := "t0",
    current_dataset := [("name", "mnist")] }

def refreshMeta1 : SessionMetadata :=
  { refreshMeta0 with budget_used := 10, budget_left_until_checkpoint := 0,
                      date_last_interacted := "t1" }

def refreshMeta2 : SessionMetadata :=
  { refreshMeta1 with date_last_interacted := "t2" }

theorem refresh_metadata_unchanged_once_witness :
    refresh_metadata (some refreshMeta0) refreshMeta1 = (false, refreshMeta1) ∧
    refresh_metadata (some refreshMeta1) refreshMeta2 = (true, refreshMeta2) :=
  refresh_metadata_unchanged_once refreshMeta0 refreshMeta1 refreshMeta2
    (by decide) (by decide)

/-- C5 counterexample: after one session-scoped call, a non-session call no
longer attaches only the team secret — the shared header dict was mutated in
place and now carries the session token as well. -/
theorem non_session_headers_polluted :
    (doCall ((ApiHandlerState.init "secret").get_session_headers "tok").2
        ClientCall.nonSession).1 =
      { user_secret := "secret", session_token := some "tok" } ∧
    (doCall ((ApiHandlerState.init "secret").get_session_headers "tok").2
        ClientCall.nonSession).1 ≠
      { user_secret := "secret", session_token := none } := by
  decide

/-- The header discipline the code actually implements: session-scoped calls
attach the team secret plus their session token; a non-session call attaches
the team secret plus the token of the most recent preceding session-scoped
call, if any (none before the first session-scoped call). -/
def expectedHeaders (secret : String) (cur : Option String) :
    List ClientCall → List Headers
  | [] => []
  | ClientCall.nonSession :: cs =>
    { user_secret := secret, session_token := cur } :: expectedHeaders secret cur cs
  | ClientCall.session tok :: cs =>
    { user_secret := secret, session_token := some tok } ::
      expectedHeaders secret (some tok) cs

theorem runCalls_expected (secret : String) :
    ∀ (cs : List ClientCall) (cur : Option String),
      runCalls { non_session_headers := { user_secret := secret, session_token := cur } } cs =
        expectedHeaders secret cur cs := by
  intro cs
  induction cs with
  | nil => intro cur; rfl
  | cons c cs ih =>
    intro cur
    cases c with
    | nonSession => simp [runCalls, doCall, expectedHeaders, ih]
    | session tok =>
      simp [runCalls, doCall, ApiHandlerState.get_session_headers, expectedHeaders, ih]

/-- C5 (amended): for every call sequence on a fresh handler, each
session-scoped call attaches {team secret, its session token}; each
non-session call attaches the team secret together with the token of the
most recent preceding session-scoped call — only the team secret before the
first session-scoped call. -/
theorem header_discipline (secret : String) (cs : List ClientCall) :
    runCalls (ApiHandlerState.init secret) cs = expectedHeaders secret none cs :=
  runCalls_expected secret cs none

/-- C4: a `getSeedLabels` response with status 200 but no `Labels` field
raises with the response's `trace` field as message (its `Error` field when
`trace` is absent); the operation is not retry-wrapped; the enclosing seed
round returns that failure immediately after the `getSeedLabels` call —
in particular before any `submitPredictions` of that round — and the
remaining rounds of the surrounding loop do not run. -/
theorem seed_labels_protocol_error (resp : SeedResponse) (server : Server)
    (stage : String) (r : Nat) (s : RunState) (msg : String)
    (h200 : resp.status = 200) (hnolab : resp.labels = none) :
    (∀ t, resp.trace = some t → get_seed_labels resp = .error t) ∧
    (resp.trace = none → ∀ e, resp.err = some e → get_seed_labels resp = .error e) ∧
    retryWrapped ApiOp.seedLabels = false ∧
    (get_seed_labels (server.seeds s.seedIdx) = .error msg →
      seedRoundStep server stage r s =
        ({ s with seedIdx := s.seedIdx + 1,
                  trace := s.trace ++ [Event.seedRound stage r, Event.getSeedLabels] },
         some (RunError.protocolError msg))) ∧
    (∀ (f : Nat → RunState → RunState × Option RunError) (i : Nat)
        (rest : List Nat) (s0 s1 : RunState) (e : RunError),
      f i s0 = (s1, some e) → foldSteps f (i :: rest) s0 = (s1, some e)) := by
  refine ⟨?_, ?_, rfl, ?_, ?_⟩
  · intro t ht
    simp [get_seed_labels, h200, hnolab, SeedResponse.failMessage, ht]
  · intro ht e he
    simp [get_seed_labels, h200, hnolab, SeedResponse.failMessage, ht, he]
  · intro herr
    simp [seedRoundStep, herr]
  · intro f i rest s0 s1 e hf
    simp [foldSteps, hf, stepThen]

/-- Concrete inputs shared by the session-level witnesses. -/
def cdOk : List (String × String) :=
  [("name", "mnist"), ("dataset_type", "image_classification")]

def seedRespOk : SeedResponse :=
  { status := 200, labels := some ["item1"], trace := none, err := none }

def metaComplete : SessionMetadata :=
  { active := "Complete", pair_stage := "base", budget_used := 0,
    budget_left_until_checkpoint := 0, date_last_interacted := "t0",
    current_dataset := cdOk }

def metaActive : SessionMetadata :=
  { metaComplete with active := "Active" }

def constServer (m : SessionMetadata) : Server :=
  { metas := fun _ => m, seeds := fun _ => seedRespOk, queries := fun _ => [] }

/-- A 200 response without `Labels`, carrying a `trace` message. -/
def badSeedResp : SeedResponse :=
  { status := 200, labels := none, trace := some "service trace", err := none }

def badSeedServer : Server :=
  { metas := fun _ => metaComplete, seeds := fun _ => badSeedResp,
    queries := fun _ => [] }

theorem seed_labels_protocol_error_witness :
    get_seed_labels badSeedResp = .error "service trace" ∧
    retryWrapped ApiOp.seedLabels = false ∧
    seedRoundStep badSeedServer "base" 0 (initSession badSeedServer) =
      ({ initSession badSeedServer with
          seedIdx := (initSession badSeedServer).seedIdx + 1,
          trace := (initSession badSeedServer).trace ++
            [Event.seedRound "base" 0, Event.getSeedLabels] },
       some (RunError.protocolError "service trace")) ∧
    foldSteps (seedRoundStep badSeedServer "base") [0, 1, 2, 3]
        (initSession badSeedServer) =
      ({ initSession badSeedServer with
          seedIdx := (initSession badSeedServer).seedIdx + 1,
          trace := (initSession badSeedServer).trace ++
            [Event.seedRound "base" 0, Event.getSeedLabels] },
       some (RunError.protocolError "service trace")) := by
  have h := seed_labels_protocol_error badSeedResp badSeedServer "base" 0
    (initSession badSeedServer) "service trace" rfl rfl
  have h4 := h.2.2.2.1 rfl
  exact ⟨h.1 "service trace" rfl, h.2.2.1, h4, h.2.2.2.2 _ 0 [1, 2, 3] _ _ _ h4⟩

/-! ### Benign-path step lemmas for the session state machine -/

/-- A learner on which `fit` succeeds: `set_stage` has been called with a
non-empty stage and non-empty dataset metadata. -/
def GoodModel (m : ModelWrapper) : Prop :=
  m.pair_stage ≠ "" ∧ m.dataset_metadata ≠ []

theorem ModelWrapper.fit_ok {m : ModelWrapper} (hm : GoodModel m)
    (cache : LabelCache) : m.fit cache = .ok () := by
  simp [ModelWrapper.fit, hm.1, hm.2]

def iteSig (b : Bool) : List Event :=
  if b then [Event.unchangedSignal] else []

theorem refreshStep_eq (server : Server) (s : RunState) :
    refreshStep server s =
      { s with metadata := server.metas s.metaIdx,
               metaIdx := s.metaIdx + 1,
               trace := s.trace ++ [Event.getSessionMetadata] ++
                 iteSig (s.metadata.strip = (server.metas s.metaIdx).strip) } := rfl

theorem fitStep_eq (s : RunState) :
    fitStep s =
      ({ s with trace := s.trace ++ [Event.fitCall s.label_cache] },
       match s.model.fit s.label_cache with
       | .ok _ => none
       | .error e => some (RunError.fitFailure e)) := by
  unfold fitStep
  cases s.model.fit s.label_cache <;> rfl

theorem seedRoundStep_ok (server : Server) (stage : String) (r : Nat)
    {s : RunState} {v : Option (List LabelRecord)}
    (hseed : get_seed_labels (server.seeds s.seedIdx) = .ok v)
    (hm : GoodModel s.model) :
    seedRoundStep server stage r s =
      ({ s with metadata := server.metas (s.metaIdx + 1),
                metaIdx := s.metaIdx + 2,
                seedIdx := s.seedIdx + 1,
                trace := s.trace ++
                  [Event.seedRound stage r, Event.getSeedLabels,
                    Event.getSessionMetadata] ++
                  iteSig (s.metadata.strip = (server.metas s.metaIdx).strip) ++
                  [Event.fitCall s.label_cache, Event.submitPredictions,
                    Event.getSessionMetadata] ++
                  iteSig ((server.metas s.metaIdx).strip =
                    (server.metas (s.metaIdx + 1)).strip) },
       none) := by
  simp [seedRoundStep, hseed, refreshStep_eq, add_to_label_cache, stepThen,
    fitStep_eq, ModelWrapper.fit_ok hm, submitStep, iteSig, List.append_assoc]

theorem checkpointBody_eq (server : Server) {s : RunState}
    (hm : GoodModel s.model) :
    checkpointBody server s =
      ({ s with metadata :=
                  { server.metas s.metaIdx with budget_left_until_checkpoint := 0 },
                metaIdx := s.metaIdx + 1,
                queryIdx := s.queryIdx + 1,
                trace := s.trace ++
                  [Event.requestLabels, Event.fitCall s.label_cache,
                    Event.getSessionMetadata] ++
                  iteSig (s.metadata.strip = (server.metas s.metaIdx).strip) },
       none) := by
  simp [checkpointBody, requestLabelLoopStep, add_to_label_cache, stepThen,
    fitStep_eq, ModelWrapper.fit_ok hm, refreshStep_eq, iteSig, List.append_assoc]

/-- Whenever the while-loop body completes without raising, it has set the
local budget counter to 0. -/
theorem checkpointBody_budget (server : Server) (s s' : RunState)
    (h : checkpointBody server s = (s', none)) :
    s'.metadata.budget_left_until_checkpoint = 0 := by
  rcases hf : fitStep (requestLabelLoopStep server s) with ⟨sf, ef⟩
  unfold checkpointBody stepThen at h
  simp only [hf] at h
  cases ef with
  | some e => simp at h
  | none =>
    simp only [Prod.mk.injEq] at h
    obtain ⟨h1, -⟩ := h
    subst h1
    rfl

theorem innerWhile_zero (server : Server) (fuel : Nat) (s : RunState)
    (h : s.metadata.budget_left_until_checkpoint = 0) :
    innerWhile server (fuel + 1) s = (s, none) := by
  simp [innerWhile, h]

/-- The `while` loop's result does not depend on the fuel once fuel ≥ 2: the
body either raises or zeroes the budget, so the loop runs at most once. -/
theorem innerWhile_fuel_indep (server : Server) (fuel : Nat) (s : RunState) :
    innerWhile server (fuel + 2) s = innerWhile server 2 s := by
  by_cases hb : s.metadata.budget_left_until_checkpoint > 0
  · rcases hcb : checkpointBody server s with ⟨s1, e1⟩
    cases e1 with
    | some e => simp [innerWhile, hb, stepThen, hcb]
    | none =>
      have hz := checkpointBody_budget server s s1 hcb
      simp [innerWhile, hb, stepThen, hcb, hz]
  · simp [innerWhile, hb]

theorem checkpointStep_zero (server : Server) (rangeLim : Nat) (stage : String)
    (i : Nat) {s : RunState}
    (hb : s.metadata.budget_left_until_checkpoint = 0) (hguard : i ≠ rangeLim) :
    checkpointStep server rangeLim stage i s =
      ({ s with metadata := server.metas s.metaIdx,
                metaIdx := s.metaIdx + 1,
                trace := s.trace ++
                  [Event.checkpoint stage i, Event.submitPredictions,
                    Event.getSessionMetadata] ++
                  iteSig (s.metadata.strip = (server.metas s.metaIdx).strip) },
       none) := by
  simp [checkpointStep, innerWhile, hb, stepThen, submitStep, refreshStep_eq,
    iteSig, hguard, List.append_assoc]

theorem checkpointStep_pos (server : Server) (rangeLim : Nat) (stage : String)
    (i : Nat) {s : RunState}
    (hb : 0 < s.metadata.budget_left_until_checkpoint)
    (hm : GoodModel s.model) (hguard : i ≠ rangeLim) :
    checkpointStep server rangeLim stage i s =
      ({ s with metadata := server.metas (s.metaIdx + 1),
                metaIdx := s.metaIdx + 2,
                queryIdx := s.queryIdx + 1,
                trace := s.trace ++
                  [Event.checkpoint stage i, Event.requestLabels,
                    Event.fitCall s.label_cache, Event.getSessionMetadata] ++
                  iteSig (s.metadata.strip = (server.metas s.metaIdx).strip) ++
                  [Event.submitPredictions, Event.getSessionMetadata] ++
                  iteSig (({ server.metas s.metaIdx with
                      budget_left_until_checkpoint := 0 } : SessionMetadata).strip =
                    (server.metas (s.metaIdx + 1)).strip) },
       none) := by
  have hcb := checkpointBody_eq server
    (s := { s with trace := s.trace ++ [Event.checkpoint stage i] }) hm
  simp [checkpointStep, innerWhile, hb, stepThen, hcb, submitStep,
    refreshStep_eq, iteSig, hguard, List.append_assoc]

theorem isMarker_iteSig (b : Bool) : (iteSig b).filter Event.isMarker = [] := by
  cases b <;> rfl

/-- Existential form of `seedRoundStep_ok`, stated on the marker filter. -/
theorem seedRoundStep_ok_ex (server : Server) (stage : String) (r : Nat)
    {s : RunState} {v : Option (List LabelRecord)}
    (hv : get_seed_labels (server.seeds s.seedIdx) = .ok v)
    (hm : GoodModel s.model) :
    ∃ s1, seedRoundStep server stage r s = (s1, none) ∧
      s1.model = s.model ∧ s1.label_cache = s.label_cache ∧
      s1.metadata = server.metas (s.metaIdx + 1) ∧
      s1.trace.filter Event.isMarker =
        s.trace.filter Event.isMarker ++ [Event.seedRound stage r] := by
  refine ⟨_, seedRoundStep_ok server stage r hv hm, rfl, rfl, rfl, ?_⟩
  simp [List.filter_append, isMarker_iteSig, Event.isMarker, List.filter]

/-- Existential form of the two checkpoint cases, stated on the marker
filter. -/
theorem checkpointStep_ok_ex (server : Server) (rangeLim : Nat) (stage : String)
    (i : Nat) {s : RunState} (hm : GoodModel s.model) (hguard : i ≠ rangeLim) :
    ∃ s1, checkpointStep server rangeLim stage i s = (s1, none) ∧
      s1.model = s.model ∧ s1.label_cache = s.label_cache ∧
      (∃ k, s1.metadata = server.metas k) ∧
      s1.trace.filter Event.isMarker =
        s.trace.filter Event.isMarker ++ [Event.checkpoint stage i] := by
  rcases Nat.eq_zero_or_pos s.metadata.budget_left_until_checkpoint with hb | hb
  · refine ⟨_, checkpointStep_zero server rangeLim stage i hb hguard, rfl, rfl,
      ⟨s.metaIdx, rfl⟩, ?_⟩
    simp [List.filter_append, isMarker_iteSig, Event.isMarker, List.filter]
  · refine ⟨_, checkpointStep_pos server rangeLim stage i hb hm hguard, rfl, rfl,
      ⟨s.metaIdx + 1, rfl⟩, ?_⟩
    simp [List.filter_append, isMarker_iteSig, Event.isMarker, List.filter]

/-- Running the seed loop over any index list on a benign server succeeds,
leaves model and label cache unchanged, ends on a fetched snapshot, and adds
exactly one seed-round marker per index to the trace. -/
theorem foldSeeds_ok (server : Server) (stage : String)
    (hseed : ∀ n, ∃ v, get_seed_labels (server.seeds n) = Except.ok v)
    (l : List Nat) :
    ∀ (s : RunState), GoodModel s.model →
      ∃ s', foldSteps (seedRoundStep server stage) l s = (s', none) ∧
        s'.model = s.model ∧ s'.label_cache = s.label_cache ∧
        (s'.metadata = s.metadata ∨ ∃ k, s'.metadata = server.metas k) ∧
        s'.trace.filter Event.isMarker =
          s.trace.filter Event.isMarker ++ l.map (Event.seedRound stage) := by
  induction l with
  | nil => exact fun s _ => ⟨s, rfl, rfl, rfl, Or.inl rfl, by simp⟩
  | cons r l ih =>
    intro s hm
    obtain ⟨v, hv⟩ := hseed s.seedIdx
    obtain ⟨s1, hstep, hm1, hc1, hmeta1, htr1⟩ := seedRoundStep_ok_ex server stage r hv hm
    obtain ⟨s', h1, h2, h3, hk', h5⟩ := ih s1 (by rw [hm1]; exact hm)
    refine ⟨s', ?_, by rw [h2, hm1], by rw [h3, hc1], ?_, ?_⟩
    · simp only [foldSteps, hstep, stepThen, h1]
    · rcases hk' with h | ⟨k, h⟩
      · exact Or.inr ⟨s.metaIdx + 1, by rw [h, hmeta1]⟩
      · exact Or.inr ⟨k, h⟩
    · rw [h5, htr1]
      simp [List.append_assoc]

/-- Running the checkpoint loop over any index list avoiding `rangeLim`
succeeds on a good model, leaves model and cache unchanged, and adds
exactly one checkpoint marker per index. -/
theorem foldCheckpoints_ok (server : Server) (rangeLim : Nat) (stage : String)
    (l : List Nat) (hl : ∀ i ∈ l, i ≠ rangeLim) :
    ∀ (s : RunState), GoodModel s.model →
      ∃ s', foldSteps (checkpointStep server rangeLim stage) l s = (s', none) ∧
        s'.model = s.model ∧ s'.label_cache = s.label_cache ∧
        (s'.metadata = s.metadata ∨ ∃ k, s'.metadata = server.metas k) ∧
        s'.trace.filter Event.isMarker =
          s.trace.filter Event.isMarker ++ l.map (Event.checkpoint stage) := by
  induction l with
  | nil => exact fun s _ => ⟨s, rfl, rfl, rfl, Or.inl rfl, by simp⟩
  | cons i l ih =>
    intro s hm
    have hi : i ≠ rangeLim := hl i (by simp)
    have hl' : ∀ j ∈ l, j ≠ rangeLim := fun j hj => hl j (by simp [hj])
    obtain ⟨s1, hstep, hm1, hc1, hmeta1, htr1⟩ :=
      checkpointStep_ok_ex server rangeLim stage i hm hi
    obtain ⟨s', h1, h2, h3, hk', h5⟩ := ih hl' s1 (by rw [hm1]; exact hm)
    refine ⟨s', ?_, by rw [h2, hm1], by rw [h3, hc1], ?_, ?_⟩
    · simp only [foldSteps, hstep, stepThen, h1]
    · rcases hk' with h | ⟨k, h⟩
      · obtain ⟨k, hk1⟩ := hmeta1
        exact Or.inr ⟨k, by rw [h, hk1]⟩
      · exact Or.inr ⟨k, h⟩
    · rw [h5, htr1]
      simp [List.append_assoc]

/-- A full stage on a benign server: no exception, the label cache is
untouched, the final snapshot is server-fetched, and the markers added are
the stage's seed rounds (none for machine translation) followed by its
checkpoints. -/
theorem stageStep_ok (server : Server) (pt : String) (rangeLim : Nat)
    (stage : String)
    (hseed : ∀ n, ∃ v, get_seed_labels (server.seeds n) = Except.ok v)
    (hcd : ∀ n, (server.metas n).current_dataset ≠ [])
    (hstage : stage ≠ "") {s : RunState} (hk : ∃ k, s.metadata = server.metas k) :
    ∃ s', stageStep server pt rangeLim stage s = (s', none) ∧
      (∃ k, s'.metadata = server.metas k) ∧
      s'.label_cache = s.label_cache ∧
      s'.trace.filter Event.isMarker =
        s.trace.filter Event.isMarker ++
          (if pt = "machine_translation" then [] else
            (List.range 4).map (Event.seedRound stage)) ++
          (List.range rangeLim).map (Event.checkpoint stage) := by
  obtain ⟨k0, hk0⟩ := hk
  have hguard : ∀ i ∈ List.range rangeLim, i ≠ rangeLim :=
    fun i hi => Nat.ne_of_lt (List.mem_range.mp hi)
  have hm0 : GoodModel (s.model.set_stage stage s.metadata.current_dataset) := by
    refine ⟨hstage, ?_⟩
    show s.metadata.current_dataset ≠ []
    rw [hk0]; exact hcd k0
  by_cases hpt : pt = "machine_translation"
  · obtain ⟨s', h1, h2, h3, hk', h5⟩ :=
      foldCheckpoints_ok server rangeLim stage (List.range rangeLim) hguard
        { s with model := s.model.set_stage stage s.metadata.current_dataset,
                 trace := s.trace ++ [Event.setStage stage] } (by exact hm0)
    refine ⟨s', ?_, ?_, by exact h3, ?_⟩
    · simp only [stageStep, hpt]
      simp only [ne_eq, not_true_eq_false, if_false, stepThen]
      exact h1
    · rcases hk' with h | ⟨k, h⟩
      · exact ⟨k0, by rw [h]; exact hk0⟩
      · exact ⟨k, h⟩
    · rw [h5]
      simp [List.filter_append, Event.isMarker, List.filter, hpt]
  · obtain ⟨s1, hs1, hm1, hc1, hk1, htr1⟩ :=
      foldSeeds_ok server stage hseed (List.range 4)
        { s with model := s.model.set_stage stage s.metadata.current_dataset,
                 trace := s.trace ++ [Event.setStage stage] } (by exact hm0)
    obtain ⟨s', h1, h2, h3, hk', h5⟩ :=
      foldCheckpoints_ok server rangeLim stage (List.range rangeLim) hguard
        s1 (by rw [hm1]; exact hm0)
    refine ⟨s', ?_, ?_, ?_, ?_⟩
    · simp only [stageStep, ne_eq, hpt, not_false_eq_true, if_true, hs1, stepThen]
      exact h1
    · rcases hk' with h | ⟨k, h⟩
      · rcases hk1 with h' | ⟨k, h'⟩
        · exact ⟨k0, by rw [h, h']; exact hk0⟩
        · exact ⟨k, by rw [h, h']⟩
      · exact ⟨k, h⟩
    · rw [h3, hc1]
    · rw [h5, htr1]
      simp [List.filter_append, Event.isMarker, List.filter, hpt, List.append_assoc]

/-- `initSession` ends on the first fetched snapshot with an empty cache and
a trace containing no markers. -/
theorem initSession_facts (server : Server) :
    (initSession server).metadata = server.metas 0 ∧
    (initSession server).label_cache = [] ∧
    (initSession server).trace.filter Event.isMarker = [] := ⟨rfl, rfl, rfl⟩

/-- The whole stage loop on a benign server: no exception, and the marker
trace is exactly: base seed rounds, base checkpoints, adaptation seed
rounds, adaptation checkpoints (seed rounds absent for machine
translation). -/
theorem runStages_ok (server : Server) (pt : String)
    (hseed : ∀ n, ∃ v, get_seed_labels (server.seeds n) = Except.ok v)
    (hcd : ∀ n, (server.metas n).current_dataset ≠ []) :
    ∃ s', runStages server pt = (s', none) ∧
      s'.trace.filter Event.isMarker =
        (if pt = "machine_translation" then [] else
          (List.range 4).map (Event.seedRound "base")) ++
        (List.range (rangeLimOf pt)).map (Event.checkpoint "base") ++
        (if pt = "machine_translation" then [] else
          (List.range 4).map (Event.seedRound "adaptation")) ++
        (List.range (rangeLimOf pt)).map (Event.checkpoint "adaptation") := by
  obtain ⟨s1, h1, hk1, hc1, htr1⟩ :=
    stageStep_ok server pt (rangeLimOf pt) "base" hseed hcd (by decide)
      (s := initSession server) ⟨0, rfl⟩
  obtain ⟨s2, h2, hk2, hc2, htr2⟩ :=
    stageStep_ok server pt (rangeLimOf pt) "adaptation" hseed hcd (by decide) hk1
  refine ⟨s2, ?_, ?_⟩
  · simp only [runStages, h1, stepThen, h2]
  · rw [htr2, htr1, (initSession_facts server).2.2]
    simp [List.append_assoc]

/-- `Session.run` returns the same state as its stage loop: the final assert
adds no events and performs no further calls. -/
theorem runSession_fst (server : Server) (pt : String) :
    (runSession server pt).1 = (runStages server pt).1 := by
  rcases h : runStages server pt with ⟨s, e⟩
  unfold runSession
  rw [h]
  cases e
  · show (if s.metadata.active = "Complete" then (s, none)
      else (s, some RunError.incompleteSessionError)).1 = (s, (none : Option RunError)).1
    split <;> rfl
  · rfl

/-- C2: on a benign server (seed responses parse, dataset metadata
non-empty) a machine-translation session runs 0 seed rounds and exactly 8
checkpoints in each of the two stages; a session of any other problem type
runs exactly 4 seed rounds followed by exactly 4 checkpoints per stage —
whatever budget values the server reports. -/
theorem session_round_counts (server : Server) (pt : String)
    (hseed : ∀ n, ∃ v, get_seed_labels (server.seeds n) = Except.ok v)
    (hcd : ∀ n, (server.metas n).current_dataset ≠ []) :
    (pt = "machine_translation" →
      (runSession server pt).1.trace.filter Event.isMarker =
        (List.range 8).map (Event.checkpoint "base") ++
        (List.range 8).map (Event.checkpoint "adaptation")) ∧
    (pt ≠ "machine_translation" →
      (runSession server pt).1.trace.filter Event.isMarker =
        (List.range 4).map (Event.seedRound "base") ++
        (List.range 4).map (Event.checkpoint "base") ++
        (List.range 4).map (Event.seedRound "adaptation") ++
        (List.range 4).map (Event.checkpoint "adaptation")) := by
  obtain ⟨s', h1, h5⟩ := runStages_ok server pt hseed hcd
  have hfst : (runSession server pt).1 = s' := by
    rw [runSession_fst, h1]
  constructor
  · intro hpt
    rw [hfst, h5]
    simp [hpt, rangeLimOf]
  · intro hpt
    rw [hfst, h5]
    simp [hpt, rangeLimOf, List.append_assoc]

theorem session_round_counts_witness :
    (runSession (constServer metaComplete) "image_classification").1.trace.filter
        Event.isMarker =
      (List.range 4).map (Event.seedRound "base") ++
      (List.range 4).map (Event.checkpoint "base") ++
      (List.range 4).map (Event.seedRound "adaptation") ++
      (List.range 4).map (Event.checkpoint "adaptation") :=
  (session_round_counts (constServer metaComplete) "image_classification"
    (fun _ => ⟨some ["item1"], rfl⟩)
    (fun _ => (by decide : metaComplete.current_dataset ≠ []))).2 (by decide)

/-- C3: whenever the stage loop finishes without raising, `Session.run`
returns normally exactly when the last fetched metadata reports
`active == Complete`; any other value raises the incomplete-session
assertion; in both cases the trace — hence the set of remote calls — is
exactly that of the stage loop, so nothing further is called. -/
theorem final_assert_complete (server : Server) (pt : String)
    (hfin : (runStages server pt).2 = none) :
    ((runStages server pt).1.metadata.active = "Complete" →
      runSession server pt = ((runStages server pt).1, none)) ∧
    ((runStages server pt).1.metadata.active ≠ "Complete" →
      runSession server pt =
        ((runStages server pt).1, some RunError.incompleteSessionError)) ∧
    (runSession server pt).1.trace = (runStages server pt).1.trace := by
  refine ⟨?_, ?_, by rw [runSession_fst]⟩ <;>
  · intro hact
    rcases h : runStages server pt with ⟨s, e⟩
    rw [h] at hfin
    simp only at hfin
    subst hfin
    rw [h] at hact
    unfold runSession
    rw [h]
    simp only at hact
    simp [hact]

theorem final_assert_complete_witness :
    runSession (constServer metaActive) "image_classification" =
      ((runStages (constServer metaActive) "image_classification").1,
        some RunError.incompleteSessionError) :=
  (final_assert_complete (constServer metaActive) "image_classification"
    (by decide)).2.1 (by decide)

theorem countP_iteSig (p : Event → Bool) (hp : p Event.unchangedSignal = false)
    (b : Bool) : countP p (iteSig b) = 0 := by
  cases b <;> simp [countP, iteSig, hp]

/-- C8: a checkpoint entered with a positive remaining budget performs
exactly one inner iteration — one label request, one refit — no matter what
budget the server reports in the refreshed metadata, and then submits
exactly once; entered with budget 0 it performs no inner iteration and
still submits once; and the while-loop's result is independent of any fuel
≥ 2 because one pass always exhausts the local budget counter. -/
theorem checkpoint_budget_one_shot (server : Server) (rangeLim : Nat)
    (stage : String) (i : Nat) (s : RunState)
    (hm : GoodModel s.model) (hguard : i ≠ rangeLim) :
    (0 < s.metadata.budget_left_until_checkpoint →
      ∃ s', checkpointStep server rangeLim stage i s = (s', none) ∧
        countP Event.isRequestLabels s'.trace =
          countP Event.isRequestLabels s.trace + 1 ∧
        countP Event.isFit s'.trace = countP Event.isFit s.trace + 1 ∧
        countP Event.isSubmit s'.trace = countP Event.isSubmit s.trace + 1) ∧
    (s.metadata.budget_left_until_checkpoint = 0 →
      ∃ s', checkpointStep server rangeLim stage i s = (s', none) ∧
        countP Event.isRequestLabels s'.trace =
          countP Event.isRequestLabels s.trace ∧
        countP Event.isFit s'.trace = countP Event.isFit s.trace ∧
        countP Event.isSubmit s'.trace = countP Event.isSubmit s.trace + 1) ∧
    (∀ fuel, innerWhile server (fuel + 2) s = innerWhile server 2 s) := by
  refine ⟨?_, ?_, fun fuel => innerWhile_fuel_indep server fuel s⟩
  · intro hb
    refine ⟨_, checkpointStep_pos server rangeLim stage i hb hm hguard, ?_, ?_, ?_⟩ <;>
      simp [countP, List.filter_append, List.filter, iteSig, Event.isRequestLabels,
        Event.isFit, Event.isSubmit, apply_ite (List.filter _), apply_ite List.length]
  · intro hb
    refine ⟨_, checkpointStep_zero server rangeLim stage i hb hguard, ?_, ?_, ?_⟩ <;>
      simp [countP, List.filter_append, List.filter, iteSig, Event.isRequestLabels,
        Event.isFit, Event.isSubmit, apply_ite (List.filter _), apply_ite List.length]

def metaBudget : SessionMetadata :=
  { metaComplete with budget_left_until_checkpoint := 5 }

def checkpointState : RunState :=
  { metadata := metaBudget, metaIdx := 1, seedIdx := 0, queryIdx := 0,
    model := ModelWrapper.init.set_stage "base" cdOk, label_cache := [],
    trace := [] }

/-! ### All-branch invariants: the label cache never grows and the
stage-transition check never executes -/

/-- Relation between a state and the result of running one engine step from
it: the label cache is unchanged, the step never raises
`StageTransitionError`, and the trace grows by events among which every
`fitCall` carries the incoming cache and none is `stageCheck`. -/
def StepSpec (s : RunState) (r : RunState × Option RunError) : Prop :=
  r.1.label_cache = s.label_cache ∧
  r.2 ≠ some RunError.stageTransitionError ∧
  ∃ d, r.1.trace = s.trace ++ d ∧
    (∀ c, Event.fitCall c ∈ d → c = s.label_cache) ∧
    Event.stageCheck ∉ d

theorem StepSpec.refl (s : RunState) : StepSpec s (s, none) :=
  ⟨rfl, by simp, [], by simp, by simp, by simp⟩

theorem StepSpec.pure {s s1 : RunState} (d : List Event)
    (hc : s1.label_cache = s.label_cache)
    (ht : s1.trace = s.trace ++ d)
    (hf : ∀ c, Event.fitCall c ∈ d → c = s.label_cache)
    (hs : Event.stageCheck ∉ d) : StepSpec s (s1, none) :=
  ⟨hc, by simp, d, ht, hf, hs⟩

theorem StepSpec.trans {s t : RunState} {r : RunState × Option RunError}
    (h1 : StepSpec s (t, none)) (h2 : StepSpec t r) : StepSpec s r := by
  obtain ⟨hc1, -, d1, ht1, hf1, hs1⟩ := h1
  obtain ⟨hc2, he2, d2, ht2, hf2, hs2⟩ := h2
  refine ⟨by rw [hc2]; exact hc1, he2, d1 ++ d2, ?_, ?_, ?_⟩
  · rw [ht2, ht1, List.append_assoc]
  · intro c hc
    rcases List.mem_append.mp hc with h | h
    · exact hf1 c h
    · rw [hf2 c h]; exact hc1
  · simp only [List.mem_append, not_or]
    exact ⟨hs1, hs2⟩

theorem stepThen_spec {s : RunState} {r : RunState × Option RunError}
    {f : RunState → RunState × Option RunError}
    (h1 : StepSpec s r) (h2 : ∀ s1, StepSpec s1 (f s1)) :
    StepSpec s (stepThen r f) := by
  rcases r with ⟨s1, e⟩
  cases e
  · exact StepSpec.trans h1 (h2 s1)
  · exact h1

theorem mem_iteSig {e : Event} {b : Bool} (h : e ∈ iteSig b) :
    e = Event.unchangedSignal := by
  cases b
  · simp [iteSig] at h
  · simpa [iteSig] using h

theorem foldSteps_spec {f : Nat → RunState → RunState × Option RunError}
    (l : List Nat) (hf : ∀ i ∈ l, ∀ s, StepSpec s (f i s)) :
    ∀ s, StepSpec s (foldSteps f l s) := by
  induction l with
  | nil => exact fun s => StepSpec.refl s
  | cons i l ih =>
    intro s
    exact stepThen_spec (hf i (by simp) s)
      (ih (fun j hj s1 => hf j (by simp [hj]) s1))

theorem refreshStep_spec (server : Server) (s : RunState) :
    StepSpec s (refreshStep server s, none) := by
  refine StepSpec.pure
    ([Event.getSessionMetadata] ++
      iteSig (s.metadata.strip = (server.metas s.metaIdx).strip)) rfl ?_ ?_ ?_
  · rw [refreshStep_eq]
    simp [List.append_assoc]
  · intro c hc
    rcases List.mem_append.mp hc with h | h
    · simp at h
    · exact absurd (mem_iteSig h) (by simp)
  · intro hc
    rcases List.mem_append.mp hc with h | h
    · simp at h
    · exact absurd (mem_iteSig h) (by simp)

theorem fitStep_spec (s : RunState) : StepSpec s (fitStep s) := by
  rw [fitStep_eq]
  refine ⟨rfl, ?_, [Event.fitCall s.label_cache], rfl, ?_, by simp⟩
  · cases s.model.fit s.label_cache <;> simp
  · intro c hc
    simp at hc
    exact hc

theorem submitRefresh_spec (server : Server) (s : RunState) :
    StepSpec s (refreshStep server (submitStep s), none) := by
  refine StepSpec.pure
    ([Event.submitPredictions, Event.getSessionMetadata] ++
      iteSig (s.metadata.strip = (server.metas s.metaIdx).strip)) rfl ?_ ?_ ?_
  · rw [refreshStep_eq]
    simp [submitStep, List.append_assoc]
  · intro c hc
    rcases List.mem_append.mp hc with h | h
    · simp at h
    · exact absurd (mem_iteSig h) (by simp)
  · intro hc
    rcases List.mem_append.mp hc with h | h
    · simp at h
    · exact absurd (mem_iteSig h) (by simp)

theorem seedRoundStep_spec (server : Server) (stage : String) (r : Nat)
    (s : RunState) : StepSpec s (seedRoundStep server stage r s) := by
  simp only [seedRoundStep]
  rcases h : get_seed_labels (server.seeds s.seedIdx) with msg | v
  · exact ⟨rfl, by simp, [Event.seedRound stage r, Event.getSeedLabels],
      by simp [List.append_assoc], by simp, by simp⟩
  · refine stepThen_spec (StepSpec.trans ?_ (fitStep_spec _))
      (fun s4 => submitRefresh_spec server s4)
    refine StepSpec.pure
      ([Event.seedRound stage r, Event.getSeedLabels, Event.getSessionMetadata] ++
        iteSig (s.metadata.strip = (server.metas s.metaIdx).strip))
      (by simp [add_to_label_cache, refreshStep_eq]) ?_ ?_ ?_
    · simp [add_to_label_cache, refreshStep_eq, List.append_assoc]
    · intro c hc
      rcases List.mem_append.mp hc with h' | h'
      · simp at h'
      · exact absurd (mem_iteSig h') (by simp)
    · intro hc
      rcases List.mem_append.mp hc with h' | h'
      · simp at h'
      · exact absurd (mem_iteSig h') (by simp)

theorem checkpointBody_spec (server : Server) (s : RunState) :
    StepSpec s (checkpointBody server s) := by
  simp only [checkpointBody]
  refine StepSpec.trans
    (StepSpec.pure [Event.requestLabels] (by simp [requestLabelLoopStep, add_to_label_cache])
      (by simp [requestLabelLoopStep]) (by simp) (by simp))
    (stepThen_spec (fitStep_spec _) (fun s2 => ?_))
  refine StepSpec.pure
    ([Event.getSessionMetadata] ++
      iteSig (s2.metadata.strip = (server.metas s2.metaIdx).strip)) rfl ?_ ?_ ?_
  · rw [refreshStep_eq]
    simp [List.append_assoc]
  · intro c hc
    rcases List.mem_append.mp hc with h | h
    · simp at h
    · exact absurd (mem_iteSig h) (by simp)
  · intro hc
    rcases List.mem_append.mp hc with h | h
    · simp at h
    · exact absurd (mem_iteSig h) (by simp)

theorem innerWhile_spec (server : Server) :
    ∀ (fuel : Nat) (s : RunState), StepSpec s (innerWhile server fuel s) := by
  intro fuel
  induction fuel with
  | zero => exact fun s => StepSpec.refl s
  | succ fuel ih =>
    intro s
    show StepSpec s (if s.metadata.budget_left_until_checkpoint > 0 then
      stepThen (checkpointBody server s) (innerWhile server fuel) else (s, none))
    split
    · exact stepThen_spec (checkpointBody_spec server s) ih
    · exact StepSpec.refl s

theorem checkpointStep_spec (server : Server) (rangeLim : Nat) (stage : String)
    (i : Nat) (hguard : i ≠ rangeLim) (s : RunState) :
    StepSpec s (checkpointStep server rangeLim stage i s) := by
  simp only [checkpointStep]
  refine stepThen_spec
    (StepSpec.trans (t := { s with trace := s.trace ++ [Event.checkpoint stage i] })
      (StepSpec.pure [Event.checkpoint stage i] rfl rfl (by simp) (by simp))
      (innerWhile_spec server 2 _))
    (fun s1 => ?_)
  have hcond : ¬(i = rangeLim ∧
      (refreshStep server (submitStep s1)).model.pair_stage = "base") :=
    fun h => hguard h.1
  show StepSpec s1 (if i = rangeLim ∧
      (refreshStep server (submitStep s1)).model.pair_stage = "base" then _ else _)
  rw [if_neg hcond]
  exact submitRefresh_spec server s1

theorem stageStep_spec (server : Server) (pt : String) (rangeLim : Nat)
    (stage : String) (s : RunState) :
    StepSpec s (stageStep server pt rangeLim stage s) := by
  simp only [stageStep]
  refine stepThen_spec ?_
    (foldSteps_spec (List.range rangeLim)
      (fun i hi s1 => checkpointStep_spec server rangeLim stage i
        (Nat.ne_of_lt (List.mem_range.mp hi)) s1))
  have hs0 : StepSpec s
      ({ s with model := s.model.set_stage stage s.metadata.current_dataset,
                trace := s.trace ++ [Event.setStage stage] }, none) :=
    StepSpec.pure [Event.setStage stage] rfl rfl (by simp) (by simp)
  split
  · exact StepSpec.trans hs0
      (foldSteps_spec (List.range 4) (fun r _ s1 => seedRoundStep_spec server stage r s1) _)
  · exact hs0

theorem runStages_spec (server : Server) (pt : String) :
    StepSpec (initSession server) (runStages server pt) := by
  simp only [runStages]
  exact stepThen_spec
    (stageStep_spec server pt (rangeLimOf pt) "base" (initSession server))
    (fun s1 => stageStep_spec server pt (rangeLimOf pt) "adaptation" s1)

theorem runSession_no_stage_error (server : Server) (pt : String) :
    (runSession server pt).2 ≠ some RunError.stageTransitionError := by
  have h := (runStages_spec server pt).2.1
  rcases hr : runStages server pt with ⟨s, e⟩
  rw [hr] at h
  unfold runSession
  rw [hr]
  cases e
  · show (if s.metadata.active = "Complete" then (s, none)
      else (s, some RunError.incompleteSessionError)).2 ≠ some RunError.stageTransitionError
    split <;> simp
  · exact h

theorem checkpoint_budget_one_shot_witness :
    ∃ s', checkpointStep (constServer metaBudget) 4 "base" 0 checkpointState =
        (s', none) ∧
      countP Event.isRequestLabels s'.trace =
        countP Event.isRequestLabels checkpointState.trace + 1 ∧
      countP Event.isFit s'.trace = countP Event.isFit checkpointState.trace + 1 ∧
      countP Event.isSubmit s'.trace =
        countP Event.isSubmit checkpointState.trace + 1 :=
  (checkpoint_budget_one_shot (constServer metaBudget) 4 "base" 0 checkpointState
    (by constructor <;> decide) (by decide)).1 (by decide)

/-- C10: throughout every session run — any server, any problem type — the
label cache stays the empty mapping: merging labels into it is a no-op,
every `fit` invocation recorded in the trace received the empty cache, and
the final cache is empty. -/
theorem label_cache_always_empty (server : Server) (pt : String) :
    (runSession server pt).1.label_cache = [] ∧
    (∀ c, Event.fitCall c ∈ (runSession server pt).1.trace → c = []) ∧
    (∀ (cache : LabelCache) (labels : Option (List LabelRecord)) (b : Bool),
      add_to_label_cache cache labels b = cache) := by
  obtain ⟨hc, -, d, ht, hf, -⟩ := runStages_spec server pt
  have hfst := runSession_fst server pt
  refine ⟨?_, ?_, fun _ _ _ => rfl⟩
  · rw [hfst]
    exact hc
  · intro c hcmem
    rw [hfst, ht] at hcmem
    rcases List.mem_append.mp hcmem with h' | h'
    · have hinit : (initSession server).trace =
          [Event.startSession, Event.getSessionMetadata] := rfl
      rw [hinit] at h'
      simp at h'
    · exact hf c h'

theorem label_cache_always_empty_witness :
    (runSession (constServer metaComplete) "image_classification").1.label_cache = [] ∧
    ([] : LabelCache) = [] :=
  ⟨(label_cache_always_empty (constServer metaComplete) "image_classification").1,
   (label_cache_always_empty (constServer metaComplete) "image_classification").2.1 []
     (by decide)⟩

/-- A server that never advances `pair_stage` past `base` yet reports
completion: the session's stage bookkeeping check should catch it. -/
def baseStuckServer : Server := constServer metaComplete

/-- C6 (the code's guard is dead): for every server and problem type the
run never evaluates the stage-transition assertion (no `stageCheck` event)
and never raises `StageTransitionError`, because the loop index `i` ranges
over `0 .. range_lim - 1` and the guard demands `i == range_lim`; in
particular a non-MT run against a server whose `pair_stage` stays `base`
through the whole base stage completes without any `StageTransitionError`. -/
theorem stage_transition_check_dead :
    (∀ (server : Server) (pt : String),
      (runSession server pt).2 ≠ some RunError.stageTransitionError ∧
      Event.stageCheck ∉ (runSession server pt).1.trace) ∧
    (runSession baseStuckServer "image_classification").2 = none ∧
    Event.stageCheck ∉ (runSession baseStuckServer "image_classification").1.trace := by
  have hmain : ∀ (server : Server) (pt : String),
      (runSession server pt).2 ≠ some RunError.stageTransitionError ∧
      Event.stageCheck ∉ (runSession server pt).1.trace := by
    intro server pt
    obtain ⟨-, -, d, ht, -, hs⟩ := runStages_spec server pt
    refine ⟨runSession_no_stage_error server pt, ?_⟩
    rw [runSession_fst, ht]
    have hinit : (initSession server).trace =
        [Event.startSession, Event.getSessionMetadata] := rfl
    rw [hinit]
    simp [hs]
  refine ⟨hmain, ?_, (hmain baseStuckServer "image_classification").2⟩
  decide

end JplTa1
